import Mathlib

/-!
Verification development for the bps-seki multi-agent query system
(`src/` of the repository under review).

The Python source is shallowly embedded:

* strings are Lean `String`s, manipulated through `List Char`
  (Python `str.lower`/`strip`/`in`/`replace` become the executable
  list functions below; `lower` is modelled on ASCII, which covers
  every string the code and claims manipulate);
* Python regular-expression searches used by the code are modelled by
  dedicated executable predicates that implement exactly the searched
  shape (word boundaries, "no newline between" for `.`, literal text
  for `re.escape`d parts);
* floats are modelled as `Rat` (all arithmetic performed by the
  forecasting code on the inputs of interest is exact);
* calls to external collaborators (the Azure language-model client,
  the SQLite executor, the Tavily web search, the metadata store)
  are inputs: an `Oracle` record supplies the outcome of each call a
  single workflow run can make, mirroring the request/response
  contracts in `llm_client.py`, `sql_executor.py` and `tools.py`.
-/

namespace BpsSeki

/-! ## Character and string primitives -/

/-- The single-quote character (written numerically). -/
def quoteChar : Char := Char.ofNat 39

/-- The single-quote character as a string. -/
def quoteStr : String := String.singleton quoteChar

/-- Python `str.lower` on one character (ASCII). -/
def lowerChar (c : Char) : Char := c.toLower

/-- Python `str.lower` as a `List Char` map. -/
def toLowerL (l : List Char) : List Char := l.map lowerChar

/-- Python `str.lower`. -/
def toLowerS (s : String) : String := String.mk (toLowerL s.toList)

/-- Characters removed by Python `str.strip()` (ASCII whitespace). -/
def isPySpace (c : Char) : Bool :=
  c = ' ' || c = Char.ofNat 9 || c = Char.ofNat 10 || c = Char.ofNat 13 ||
  c = Char.ofNat 11 || c = Char.ofNat 12

/-- Python `str.strip()` on a character list. -/
def stripL (l : List Char) : List Char :=
  ((l.dropWhile isPySpace).reverse.dropWhile isPySpace).reverse

/-- Python `str.strip()`. -/
def stripS (s : String) : String := String.mk (stripL s.toList)

/-- Python `str.rstrip(";")` on a character list. -/
def rstripSemiL (l : List Char) : List Char :=
  (l.reverse.dropWhile (fun c => c = ';')).reverse

/-- Python substring test `pat in s` on character lists. -/
def containsSub (pat : List Char) : List Char → Bool
  | [] => pat.isPrefixOf []
  | c :: rest => pat.isPrefixOf (c :: rest) || containsSub pat rest

/-- Python substring test `pat in s` for strings (both as given). -/
def containsSubS (pat s : String) : Bool := containsSub pat.toList s.toList

/-- `str.find`: index of the first occurrence of `pat`, if any. -/
def findSub (pat : List Char) : List Char → Option Nat
  | [] => if pat.isPrefixOf [] then some 0 else none
  | c :: rest =>
    if pat.isPrefixOf (c :: rest) then some 0
    else (findSub pat rest).map (· + 1)

/-- A regex `\w` word character (ASCII letters, digits, underscore). -/
def isWordChar (c : Char) : Bool := c.isAlphanum || c = '_'

/-- Word-boundary test for the character adjacent to a match
(`none` = edge of the string, which is always a boundary). -/
def boundaryOk : Option Char → Bool
  | none => true
  | some c => !isWordChar c

/-- Auxiliary for `re.search(rf"\b{kw}\b", s)`: scans `s`
remembering the previous character to decide the left boundary. -/
def wholeWordAux (pat : List Char) (prev : Option Char) : List Char → Bool
  | [] => false
  | c :: rest =>
    (pat.isPrefixOf (c :: rest) && boundaryOk prev &&
      boundaryOk ((c :: rest).drop pat.length).head?) ||
    wholeWordAux pat (some c) rest

/-- `re.search(rf"\b{kw}\b", s) is not None` for a keyword made of
word characters: `kw` occurs with non-word (or absent) characters on
both sides. -/
def containsWholeWord (pat s : List Char) : Bool := wholeWordAux pat none s

/-- Number of whole-word occurrences of `pat` in `s`
(used to count `LIMIT` clauses). -/
def countWholeWordAux (pat : List Char) (prev : Option Char) : List Char → Nat
  | [] => 0
  | c :: rest =>
    (if pat.isPrefixOf (c :: rest) && boundaryOk prev &&
        boundaryOk ((c :: rest).drop pat.length).head? then 1 else 0) +
    countWholeWordAux pat (some c) rest

/-- Number of whole-word occurrences of `pat` in `s`. -/
def countWholeWord (pat s : List Char) : Nat := countWholeWordAux pat none s

/-- `Fuel`-driven core of Python `str.replace` (replace every
occurrence, left to right, no overlap). -/
def replaceAllAux (pat repl : List Char) : Nat → List Char → List Char
  | 0, s => s
  | _, [] => []
  | fuel + 1, c :: rest =>
    if pat.isPrefixOf (c :: rest) && !pat.isEmpty then
      repl ++ replaceAllAux pat repl fuel ((c :: rest).drop pat.length)
    else
      c :: replaceAllAux pat repl fuel rest

/-- Python `s.replace(pat, repl)` (all occurrences). -/
def replaceAllL (pat repl s : List Char) : List Char :=
  replaceAllAux pat repl s.length s

/-- Python `s.replace(pat, repl)` on strings. -/
def replaceAllS (s pat repl : String) : String :=
  String.mk (replaceAllL pat.toList repl.toList s.toList)

/-- `re.compile(pat, re.IGNORECASE).sub(repl, s, count=1)` for a
plain-text lowercase pattern: replace the first case-insensitive
occurrence of `pat` in `s` by `repl` (the replacement inserted
literally). -/
def replaceFirstCI (pat repl : List Char) : List Char → List Char
  | [] => []
  | c :: rest =>
    if pat.isPrefixOf (toLowerL (c :: rest)) then
      repl ++ (c :: rest).drop pat.length
    else
      c :: replaceFirstCI pat repl rest

/-- Python `str.isdigit()` (ASCII digits, non-empty). -/
def isDigitStr (s : String) : Bool :=
  !s.toList.isEmpty && s.toList.all Char.isDigit

/-- Python `int(...)` on a digit string. -/
def digitsToNat (l : List Char) : Nat :=
  l.foldl (fun n c => 10 * n + (c.toNat - 48)) 0

/-- Python truthiness of an optional string (`None` and `""` are
falsy). -/
def truthy : Option String → Bool
  | none => false
  | some s => !(s == "")

/-! ## Configuration (`src/config.py`, environment defaults) -/

/-- `config.MIN_DATA_POINTS` (default `3`). -/
def MIN_DATA_POINTS : Nat := 3

/-- `config.DEFAULT_FORECAST_PERIODS` (default `3`). -/
def DEFAULT_FORECAST_PERIODS : Nat := 3

/-- `config.DEFAULT_LIMIT` (default `5`). -/
def DEFAULT_LIMIT : Nat := 5

/-! ## `src/sql_validator.py` : `SQLValidator` -/

/-- `SQLValidator.FORBIDDEN_KEYWORDS`. -/
def FORBIDDEN_KEYWORDS : List String :=
  ["drop", "delete", "update", "insert", "alter",
   "truncate", "create", "attach", "detach", "grant",
   "revoke", "commit", "rollback", "savepoint", "exec",
   "execute", "sp_", "xp_", "shutdown"]

/-- Result shape of `SQLValidator.validate_sql`
(the dictionary's `is_valid` and `reason` fields). -/
structure ValidationResult where
  is_valid : Bool
  reason : String
deriving DecidableEq

/-- Occurrence of `b` somewhere at-or-after the current position with
no newline strictly before it (the chars of `b` itself may be
anything): models what `.*` can span in an un-`DOTALL`ed regex. -/
def existsSubNoNewlineBefore (b : List Char) : List Char → Bool
  | [] => b.isPrefixOf []
  | c :: rest =>
    b.isPrefixOf (c :: rest) ||
    (!(c = Char.ofNat 10) && existsSubNoNewlineBefore b rest)

/-- `re.search("a.*b", s) is not None` for literal `a`, `b`:
some occurrence of `a` is followed, with no intervening newline, by
an occurrence of `b`. -/
def subThenSub (a b : List Char) : List Char → Bool
  | [] => false
  | c :: rest =>
    (a.isPrefixOf (c :: rest) &&
      existsSubNoNewlineBefore b ((c :: rest).drop a.length)) ||
    subThenSub a b rest

/-- `re.search(r"pat\s*\(", s)`: literal `pat`, optional whitespace,
then an opening parenthesis. -/
def subThenWsParen (pat : List Char) : List Char → Bool
  | [] => false
  | c :: rest =>
    (pat.isPrefixOf (c :: rest) &&
      ((((c :: rest).drop pat.length).dropWhile isPySpace).head? = some '(')) ||
    subThenWsParen pat rest

/-- `re.search(r"--.*$", s)` without `re.MULTILINE`: `--` occurs on
the final line (a single trailing newline is ignored by `$`). -/
def dashDashFinalLine (s : List Char) : Bool :=
  let t := if s.getLast? = some (Char.ofNat 10) then s.dropLast else s
  containsSub ['-', '-'] ((t.reverse.takeWhile (fun c => !(c = Char.ofNat 10))).reverse)

/-- `re.search(r";\s*--", s)`. -/
def semiThenDashDash : List Char → Bool
  | [] => false
  | c :: rest =>
    (c = ';' && (['-', '-'].isPrefixOf (rest.dropWhile isPySpace))) ||
    semiThenDashDash rest

/-- `SQLValidator.FORBIDDEN_PATTERNS` as one test over the lowered
statement: comments, multi-statement comment shapes, `union…select`,
stored-procedure shapes, and time-delay functions. -/
def matchesForbiddenPattern (sqlL : List Char) : Bool :=
  dashDashFinalLine sqlL ||
  semiThenDashDash sqlL ||
  subThenSub "union".toList "select".toList sqlL ||
  (subThenSub "exec".toList ['('] sqlL || containsSub "sp_".toList sqlL) ||
  containsSub "xp_".toList sqlL ||
  (subThenSub "waitfor".toList "delay".toList sqlL || subThenWsParen "sleep".toList sqlL) ||
  (subThenWsParen "benchmark".toList sqlL || containsSub "pg_sleep".toList sqlL)

/-- Number of statements reported by `sqlparse.parse`, modelled as
top-level semicolon splitting: semicolons inside single-quoted
literals do not split, and a trailing fragment counts only if it
contains a non-whitespace character. -/
def statementCountAux : List Char → Bool → Nat → Bool → Nat
  | [], _, semis, tailContent => semis + (if tailContent then 1 else 0)
  | c :: rest, inQuote, semis, tailContent =>
    if c = quoteChar then
      statementCountAux rest (!inQuote) semis true
    else if c = ';' && !inQuote then
      statementCountAux rest inQuote (semis + 1) false
    else
      statementCountAux rest inQuote semis (tailContent || !isPySpace c)

/-- Number of statements reported by `sqlparse.parse(sql)`. -/
def statementCount (s : List Char) : Nat := statementCountAux s false 0 false

/-- `SQLValidator.validate_sql`: the five checks, in source order —
`SELECT` prefix, whole-word forbidden keywords, forbidden regex
patterns, presence of `FROM`, single-statement parse. -/
def validate_sql (sql : String) : ValidationResult :=
  let sqlL := stripL (toLowerL sql.toList)
  if !("select".toList.isPrefixOf sqlL) then
    ⟨false, "Only SELECT queries are allowed"⟩
  else
    match FORBIDDEN_KEYWORDS.find? (fun kw => containsWholeWord kw.toList sqlL) with
    | some kw => ⟨false, "Contains forbidden keyword: " ++ kw⟩
    | none =>
      if matchesForbiddenPattern sqlL then
        ⟨false, "Contains dangerous SQL pattern"⟩
      else if !containsSub "from".toList sqlL then
        ⟨false, "Query missing FROM clause"⟩
      else if statementCount sql.toList > 1 then
        ⟨false, "Multiple SQL statements detected"⟩
      else
        ⟨true, "Query is safe"⟩

/-- `re.search(rf"where.*{re.escape(col)}", sql_lower)`:
`where` followed — on the same line, `.` not matching newlines — by
the literal (already lowered) column text. -/
def whereThenCol (colL : List Char) : List Char → Bool
  | [] => false
  | c :: rest =>
    ("where".toList.isPrefixOf (c :: rest) &&
      existsSubNoNewlineBefore colL ((c :: rest).drop 5)) ||
    whereThenCol colL rest

/-- The text `WHERE {col} LIKE '{region}%' AND` substituted for the
first `where` by `inject_region_filter`. -/
def whereReplacement (access_column region : String) : String :=
  "WHERE " ++ access_column ++ " LIKE " ++ quoteStr ++ region ++ "%" ++ quoteStr ++ " AND"

/-- The text ` WHERE {col} LIKE '{region}%' ` inserted before a
`GROUP BY`/`ORDER BY`/`LIMIT` clause by `inject_region_filter`. -/
def whereInsertion (access_column region : String) : String :=
  " WHERE " ++ access_column ++ " LIKE " ++ quoteStr ++ region ++ "%" ++ quoteStr ++ " "

/-- The text ` WHERE {col} LIKE '{region}%';` appended at the end by
`inject_region_filter`. -/
def whereAppended (access_column region : String) : String :=
  " WHERE " ++ access_column ++ " LIKE " ++ quoteStr ++ region ++ "%" ++ quoteStr ++ ";"

/-- `SQLValidator.inject_region_filter`: skip when the access column
or region is falsy; skip when an access-column mention already
follows a `where`; otherwise extend the first `WHERE` with the
restriction and `AND`, or insert a new `WHERE` before the first of
`group by`/`order by`/`limit` (searched in that fixed order), or
append it at the end. -/
def inject_region_filter (sql access_column region : String) : String :=
  if access_column = "" || region = "" then sql
  else
    if whereThenCol (toLowerL access_column.toList) (toLowerL sql.toList) then sql
    else if containsSub "where".toList (toLowerL sql.toList) then
      String.mk (replaceFirstCI "where".toList (whereReplacement access_column region).toList sql.toList)
    else
      match findSub "group by".toList (toLowerL sql.toList) with
      | some idx =>
        String.mk (sql.toList.take idx ++ (whereInsertion access_column region).toList ++ sql.toList.drop idx)
      | none =>
        match findSub "order by".toList (toLowerL sql.toList) with
        | some idx =>
          String.mk (sql.toList.take idx ++ (whereInsertion access_column region).toList ++ sql.toList.drop idx)
        | none =>
          match findSub "limit".toList (toLowerL sql.toList) with
          | some idx =>
            String.mk (sql.toList.take idx ++ (whereInsertion access_column region).toList ++ sql.toList.drop idx)
          | none =>
            String.mk (rstripSemiL sql.toList) ++ whereAppended access_column region

/-- `SQLValidator.add_limit_if_missing` with the configured default
limit: return unchanged when the lowered statement contains the
substring `limit`, else strip trailing semicolons/whitespace and
append ` LIMIT 5;`. -/
def add_limit_if_missing (sql : String) : String :=
  if containsSub "limit".toList (toLowerL sql.toList) then sql
  else String.mk (stripL (rstripSemiL sql.toList)) ++ " LIMIT " ++ toString DEFAULT_LIMIT ++ ";"

/-! ## `src/forecast_agent.py` : `ForecastAgent.simple_linear_forecast`

The model captures the period labels and the point predictions of
the records returned in `forecast["predictions"]`.  The rows of the
data frame arrive as optional `(date, value)` rationals — a `none`
component is a cell where `pd.to_numeric(..., errors="coerce")`
produced `NaN`, which `dropna` removes.  The ±1.96·σ confidence
interval (which needs a real square root) and the envelope metadata
are outside the model; they do not affect any claim. -/

/-- Ordinary-least-squares denominator `n·Σx² − (Σx)²` for the date
column, as produced by `sklearn.linear_model.LinearRegression` on a
single feature. -/
def olsDenom (xs : List Rat) : Rat :=
  (xs.length : Rat) * (xs.map (fun x => x * x)).sum - xs.sum * xs.sum

/-- OLS slope for points `(x, y)`; `0` when the denominator vanishes
(all dates equal — the minimum-norm least-squares solution). -/
def olsSlope (pts : List (Rat × Rat)) : Rat :=
  let xs := pts.map Prod.fst
  let ys := pts.map Prod.snd
  let n : Rat := (pts.length : Rat)
  let d := olsDenom xs
  if d = 0 then 0
  else (n * (pts.map (fun p => p.1 * p.2)).sum - xs.sum * ys.sum) / d

/-- OLS intercept `ȳ − slope·x̄`. -/
def olsIntercept (pts : List (Rat × Rat)) : Rat :=
  let xs := pts.map Prod.fst
  let ys := pts.map Prod.snd
  let n : Rat := (pts.length : Rat)
  ys.sum / n - olsSlope pts * (xs.sum / n)

/-- `ForecastAgent.simple_linear_forecast`: reject histories below
`MIN_DATA_POINTS` (before and after dropping non-numeric rows), fit
a least-squares line to the remaining `(date, value)` pairs, and
predict periods `i = 0, …, periods−1` at date `last_date + i + 1`,
labelled `Periode {i+1}`. -/
def simple_linear_forecast (df : List (Option Rat × Option Rat)) (periods : Nat) :
    Except String (List (String × Rat)) :=
  if df.length < MIN_DATA_POINTS then
    .error ("Minimum " ++ toString MIN_DATA_POINTS ++ " data points required, got " ++ toString df.length)
  else
    let clean := df.filterMap (fun p =>
      match p with
      | (some d, some v) => some (d, v)
      | _ => none)
    if clean.length < MIN_DATA_POINTS then
      .error ("After cleaning, only " ++ toString clean.length ++ " valid data points")
    else
      let slope := olsSlope clean
      let intercept := olsIntercept clean
      let lastDate := (clean.map Prod.fst).getLast?.getD 0
      .ok ((List.range periods).map (fun (i : Nat) =>
        ("Periode " ++ toString (i + 1), intercept + slope * (lastDate + (i : Rat) + 1))))

/-! ## `src/smart_selector.py` : `SmartTableSelector.select_best_table`

The language-model call and the defensive JSON extraction that
follows it (`re.search(r"\{.*\}", …)` then `json.loads`) are
modelled by an oracle value of type `SelOutcome`: either the call
failed, or no JSON object could be parsed out of the reply (the
constructor carries the exception text), or a JSON object was parsed
and its `selected_table_index` field was an integer (`some i`) or
missing/non-integer (`none`), with `confidence` and `reason` already
defaulted per `result.get(…)`. -/

/-- The slice of a table's metadata record the workflow logic reads
(`access_column`; the remaining fields only feed prompt text). -/
structure TableMeta where
  access_column : Option String
deriving DecidableEq

/-- One ranked candidate, as produced by
`MetadataManager.find_relevant_tables`. -/
structure Candidate where
  table_name : String
  metadata : TableMeta
  relevance_score : Rat
deriving DecidableEq

/-- Outcome of the selector's language-model request and JSON
extraction. -/
inductive SelOutcome where
  | llmFail (err : String)
  | parseFail (emsg : String)
  | parsed (idx : Option Int) (conf : Rat) (reason : String)
deriving DecidableEq

/-- Return shape of `select_best_table` (`llm_called` records
whether the language-model service was invoked). -/
structure SelectionResult where
  selected : Option Candidate
  confidence : Rat
  reason : String
  llm_called : Bool
deriving DecidableEq

/-- `max(candidates, key=lambda x: x.get("relevance_score", 0))`:
first candidate with the greatest relevance score. -/
def maxByRelevance (c : Candidate) (rest : List Candidate) : Candidate :=
  rest.foldl (fun best x => if x.relevance_score > best.relevance_score then x else best) c

/-- Python `str(e)[:50]` applied in the fallback reason. -/
def take50 (s : String) : String := String.mk (s.toList.take 50)

/-- The deterministic fallback of `select_best_table`: highest
relevance score, fixed confidence `0.3`. -/
def selectorFallback (c : Candidate) (rest : List Candidate) (emsg : String) : SelectionResult :=
  { selected := some (maxByRelevance c rest)
    confidence := 3 / 10
    reason := "Fallback due to error: " ++ take50 emsg
    llm_called := true }

/-- `SmartTableSelector.select_best_table`: no candidates → empty
selection with confidence 0 and no service call; exactly one →
that candidate with confidence 1.0 and no service call; otherwise
one service call whose outcome is either a valid 1-based index
(selected with the reported confidence) or any failure (fallback to
the highest relevance score at confidence 0.3 — the function never
raises). -/
def select_best_table (user_query : String) (candidate_tables : List Candidate)
    (user_context_region : Option String) (outcome : SelOutcome) : SelectionResult :=
  match candidate_tables with
  | [] => { selected := none, confidence := 0, reason := "No candidate tables", llm_called := false }
  | [c] => { selected := some c, confidence := 1, reason := "Only one candidate table available", llm_called := false }
  | c :: rest =>
    match outcome with
    | .llmFail e => selectorFallback c rest ("LLM call failed: " ++ e)
    | .parseFail emsg => selectorFallback c rest emsg
    | .parsed idx conf reason =>
      match idx with
      | some i =>
        if 1 ≤ i ∧ i ≤ (c :: rest).length then
          { selected := (c :: rest).get? (i - 1).toNat
            confidence := conf
            reason := reason
            llm_called := true }
        else selectorFallback c rest "Invalid JSON structure or index out of bounds"
      | none => selectorFallback c rest "Invalid JSON structure or index out of bounds"

/-! ## `src/state.py`, `src/nodes.py`, `src/workflow.py`

The enhanced workflow (`build_enhanced_workflow`) is embedded: the
`AgentState` record mirrors `state.py` (the `messages` channel and
the prompt-only `leveldata` context entry are elided), node
functions mirror `nodes.py`/`workflow.py`, and the LangGraph wiring
is the `stepEnhanced` dispatcher: conditional edges call the
`route_after_*` functions on the node's output, while `sql_agent`,
`sql_executor`, `forecast_agent`, `response_formatter` and
`error_handler` have the fixed edges added by `add_edge`. -/

/-- Response of `llm_client.call_sql_llm` / `call_user_llm`
(`{success, content}` or `{success: False, error}`). -/
inductive LLMResult where
  | ok (content : String)
  | err (msg : String)
deriving DecidableEq

/-- Response of `SQLExecutor.execute`: on success the tabular rows
(each row a list of cell texts), else the error message. -/
inductive ExecResult where
  | ok (rows : List (List String))
  | err (msg : String)
deriving DecidableEq

/-- The `forecast` payload stored in the state by the enhanced
forecast node and read back by the response formatter. -/
structure ForecastPayload where
  predictions : List (String × Rat)
  method : String
  table_name : Option String
  data_points : Nat
deriving DecidableEq

/-- Result of `EnhancedForecastAgent.enhanced_forecast` as consumed
by `enhanced_forecast_agent_node` (its `success` flag and either the
forecast payload or the `error` text).  The agent's internals
(column detection, SQL retrieval, regression) are supplied by the
oracle; the faithful model of its regression core is
`simple_linear_forecast` above. -/
inductive ForecastCall where
  | ok (payload : ForecastPayload)
  | err (msg : String)
deriving DecidableEq

/-- `AgentState` (`src/state.py`) without the prompt-only fields. -/
structure AgentState where
  user_input : String
  user_context_region : Option String
  intent : Option String
  needs_clarification : Bool
  clarification_question : Option String
  clarification_response : Option String
  relevant_tables : List Candidate
  selected_table : Option String
  table_metadata : Option TableMeta
  selection_confidence : Option Rat
  selection_reason : Option String
  raw_sql : Option String
  validated_sql : Option String
  execution_result : Option (List (List String))
  forecast_result : Option ForecastPayload
  final_answer : Option String
  error : Option String
  next_node : Option String
deriving DecidableEq

/-- The outcomes of every external call a single enhanced-workflow
run can make (`Oracle.web` is the formatted text returned by
`web_search_tool.search`; `metaLookup` answers the
`metadata_manager.get_table_metadata` fallback). -/
structure Oracle where
  ranker : List Candidate
  selector : SelOutcome
  metaLookup : Option TableMeta
  sqlLLM : LLMResult
  exec : ExecResult
  forecast : ForecastCall
  web : String
  clarifyLLM : LLMResult
  formatLLM : LLMResult

/-- The fresh state built per question in `main.py` / `app.py`. -/
def initState (q : String) (region : Option String) : AgentState :=
  { user_input := q
    user_context_region := region
    intent := none
    needs_clarification := false
    clarification_question := none
    clarification_response := none
    relevant_tables := []
    selected_table := none
    table_metadata := none
    selection_confidence := none
    selection_reason := none
    raw_sql := none
    validated_sql := none
    execution_result := none
    forecast_result := none
    final_answer := none
    error := none
    next_node := none }

/-- `router_node` keyword set for forecast intent. -/
def forecast_keywords : List String :=
  ["prediksi", "forecast", "ramal", "estimasi", "proyeksi", "tren", "masa depan"]

/-- `router_node` keyword set for sql intent. -/
def sql_keywords : List String :=
  ["tampilkan", "lihat", "berapa", "total", "jumlah", "data", "select", "daftar", "statistik"]

/-- The intent classification of `router_node`: case-insensitive
substring match, forecast keywords first, default `clarify`. -/
def routerIntent (input : String) : String :=
  if forecast_keywords.any (fun kw => containsSub kw.toList (toLowerL input.toList)) then "forecast"
  else if sql_keywords.any (fun kw => containsSub kw.toList (toLowerL input.toList)) then "sql"
  else "clarify"

/-- `router_node`. -/
def router_node (s : AgentState) : AgentState :=
  { s with intent := some (routerIntent s.user_input), next_node := some "metadata_retriever" }

/-- The shared else-branch of `enhanced_metadata_retriever_node`:
pick the candidate with the highest relevance score. -/
def metadataFallbackSelect (s : AgentState) (c : Candidate) (rest : List Candidate) : AgentState :=
  { s with selected_table := some (maxByRelevance c rest).table_name
           table_metadata := some (maxByRelevance c rest).metadata
           next_node := some "planner" }

/-- The write-back of the selector's result performed by
`enhanced_metadata_retriever_node` (confidence threshold 0.3). -/
def metadataApplySelection (s : AgentState) (selres : SelectionResult)
    (c : Candidate) (rest : List Candidate) : AgentState :=
  match selres.selected with
  | some t =>
    if selres.confidence > 3 / 10 then
      { s with selected_table := some t.table_name
               table_metadata := some t.metadata
               selection_confidence := some selres.confidence
               selection_reason := some selres.reason
               next_node := some "planner" }
    else metadataFallbackSelect s c rest
  | none => metadataFallbackSelect s c rest

/-- `enhanced_metadata_retriever_node`: clarify intent skips table
search; an empty ranker result clears `needs_clarification` and
requests the clarify/web node; otherwise `select_best_table` runs
and the selection (or the highest-relevance fallback when its
confidence is ≤ 0.3) is written to the state with `planner` next. -/
def enhanced_metadata_retriever_node (o : Oracle) (s : AgentState) : AgentState :=
  if s.intent = some "clarify" then { s with next_node := some "clarify_agent" }
  else
    match o.ranker with
    | [] =>
      { s with relevant_tables := []
               needs_clarification := false
               next_node := some "clarify_agent" }
    | c :: rest =>
      metadataApplySelection { s with relevant_tables := c :: rest }
        (select_best_table s.user_input (c :: rest) s.user_context_region o.selector) c rest

/-- `planner_node`: dispatch strictly on intent. -/
def planner_node (s : AgentState) : AgentState :=
  match s.intent with
  | some i =>
    if i = "forecast" then { s with next_node := some "forecast_agent" }
    else if i = "sql" then { s with next_node := some "sql_agent" }
    else { s with next_node := some "clarify_agent" }
  | none => { s with next_node := some "clarify_agent" }

/-- The region/limit post-processing applied by
`enhanced_sql_agent_node` after validation (`nodes.py` lines
183–192): inject the region filter only when both the table's access
column and the caller's region are truthy, then always apply
`add_limit_if_missing`. -/
def sqlAgentPostprocess (raw : String) (access_column : Option String) (region : Option String) : String :=
  let withRegion :=
    if truthy access_column && truthy region then
      inject_region_filter raw (access_column.getD "") (region.getD "")
    else raw
  add_limit_if_missing withRegion

/-- The body of `enhanced_sql_agent_node` once a table record is in
hand: one `call_sql_llm` request, code-fence cleanup, validation,
then region/limit post-processing. -/
def sqlAgentWithTable (o : Oracle) (s : AgentState) (table_info : Candidate) : AgentState :=
  match o.sqlLLM with
  | .err e =>
    { s with error := some ("SQL generation failed: " ++ e), next_node := some "error_handler" }
  | .ok content =>
    let raw := stripS (replaceAllS (replaceAllS (stripS content) "```sql" "") "```" "")
    let validation := validate_sql raw
    if validation.is_valid = false then
      { s with error := some ("SQL validation failed: " ++ validation.reason)
               next_node := some "error_handler" }
    else
      let sqlFinal := sqlAgentPostprocess raw table_info.metadata.access_column s.user_context_region
      { s with raw_sql := some sqlFinal
               validated_sql := some sqlFinal
               next_node := some "sql_executor" }

/-- `enhanced_sql_agent_node`: require a selected table, find its
record among the relevant tables (falling back to a direct metadata
lookup), then generate/validate/post-process the statement. -/
def enhanced_sql_agent_node (o : Oracle) (s : AgentState) : AgentState :=
  if truthy s.selected_table = false then
    { s with error := some "No table selected", next_node := some "error_handler" }
  else
    let tname := s.selected_table.getD ""
    match s.relevant_tables.find? (fun t => t.table_name == tname) with
    | some table_info => sqlAgentWithTable o s table_info
    | none =>
      match o.metaLookup with
      | some m => sqlAgentWithTable o s ⟨tname, m, 0⟩
      | none =>
        { s with error := some ("Table " ++ tname ++ " not found")
                 next_node := some "error_handler" }

/-- `sql_executor_node`. -/
def sql_executor_node (o : Oracle) (s : AgentState) : AgentState :=
  if truthy s.validated_sql = false then
    { s with error := some "No SQL query to execute", next_node := some "error_handler" }
  else
    match o.exec with
    | .ok rows => { s with execution_result := some rows, next_node := some "response_formatter" }
    | .err e => { s with error := some e, next_node := some "error_handler" }

/-- `enhanced_forecast_agent_node` (defined in `workflow.py`). -/
def enhanced_forecast_agent_node (o : Oracle) (s : AgentState) : AgentState :=
  if truthy s.selected_table = false then
    { s with error := some "No table selected for forecasting", next_node := some "error_handler" }
  else
    match o.forecast with
    | .ok payload => { s with forecast_result := some payload, next_node := some "response_formatter" }
    | .err e => { s with error := some e, next_node := some "error_handler" }

/-- `clarify_agent_node`, first condition: a truthy numeric reply to
a pending table-disambiguation question resolves the table by
1-based index and loops back to the planner; any other reply falls
through. -/
def clarifyResolve (s : AgentState) : Option AgentState :=
  match s.clarification_response with
  | none => none
  | some resp0 =>
    if resp0 = "" then none
    else
      let resp := stripS resp0
      if isDigitStr resp then
        let idx : Int := (digitsToNat resp.toList : Int) - 1
        if 0 ≤ idx ∧ idx < (s.relevant_tables.length : Int) then
          match s.relevant_tables.get? idx.toNat with
          | some sel =>
            some { s with selected_table := some sel.table_name
                          table_metadata := some sel.metadata
                          needs_clarification := false
                          clarification_question := none
                          clarification_response := none
                          next_node := some "planner" }
          | none => none
        else none
      else none

/-- `clarify_agent_node`: resolve a pending disambiguation reply, or
re-emit a pending question as the final answer, or run the web
search + answer-composition path (on a failed composition call only
the error field is written). -/
def clarify_agent_node (o : Oracle) (s : AgentState) : AgentState :=
  match clarifyResolve s with
  | some s2 => s2
  | none =>
    if s.needs_clarification = true ∧ truthy s.clarification_question = true then
      { s with final_answer := s.clarification_question, next_node := some "end" }
    else
      match o.clarifyLLM with
      | .ok c => { s with final_answer := some c, next_node := some "end" }
      | .err _ =>
        { s with error := some "Gagal menghasilkan jawaban dari Web Search."
                 next_node := some "end" }

/-- Simplified rendering of `DataFrame.head(10).to_markdown`
(feeds only prompt/fallback narrative text). -/
def markdownPreview (rows : List (List String)) : String :=
  String.intercalate "\n" (rows.map (fun r => String.intercalate " | " r))

/-- Fallback rendering of one forecast line (`- {period}: {pred}`,
float formatting simplified). -/
def forecastLine (p : String × Rat) : String :=
  "- " ++ p.1 ++ ": " ++ toString p.2 ++ "\n"

/-- `response_formatter_node`: narrate an execution result (LLM with
deterministic fallback), else a forecast result (likewise), else
keep a truthy pre-existing answer or install the generic no-data
message. -/
def response_formatter_node (o : Oracle) (s : AgentState) : AgentState :=
  match s.execution_result with
  | some rows =>
    if rows.isEmpty then
      let base := "✅ **HASIL QUERY**\n\n" ++ "Tabel: " ++ s.selected_table.getD "Unknown" ++ "\n"
        ++ "Query berhasil dieksekusi tetapi tidak ada data yang ditemukan sesuai kriteria filter Anda."
      let response :=
        if truthy s.validated_sql then
          base ++ "\n\n**Query SQL:**\n```sql\n" ++ s.validated_sql.getD "" ++ "\n```"
        else base
      { s with final_answer := some response, next_node := some "end" }
    else
      match o.formatLLM with
      | .ok c => { s with final_answer := some c, next_node := some "end" }
      | .err _ =>
        { s with final_answer := some ("Berikut data yang ditemukan:\n\n"
            ++ markdownPreview (rows.take 10) ++ "\n\n(Gagal membuat narasi penjelasan)")
                 next_node := some "end" }
  | none =>
    match s.forecast_result with
    | some fc =>
      match o.formatLLM with
      | .ok c => { s with final_answer := some c, next_node := some "end" }
      | .err _ =>
        { s with final_answer := some ("📈 **HASIL FORECASTING**\n\n" ++ "Metode: "
            ++ fc.method ++ "\n\n" ++ String.join (fc.predictions.map forecastLine))
                 next_node := some "end" }
    | none =>
      if truthy s.final_answer then { s with next_node := some "end" }
      else
        { s with final_answer := some "Maaf, tidak ada data yang dapat ditampilkan saat ini."
                 next_node := some "end" }

/-- `error_handler_node`: always writes a non-empty terminal
answer. -/
def error_handler_node (s : AgentState) : AgentState :=
  let error_msg := s.error.getD "Unknown error"
  let response := "⚠️ **ERROR**\n\n" ++ error_msg ++ "\n\n"
      ++ "**Query:** " ++ s.user_input ++ "\n"
      ++ "**Table:** " ++ s.selected_table.getD "N/A" ++ "\n\n"
      ++ "Silakan coba lagi dengan query yang lebih spesifik."
  { s with final_answer := some response, next_node := some "end" }

/-- `route_after_router` (`workflow.py`). -/
def route_after_router (s : AgentState) : String := s.next_node.getD "metadata_retriever"

/-- `route_after_metadata` (`workflow.py`): only inspects
`needs_clarification` — the retriever's `next_node` request is
ignored. -/
def route_after_metadata (s : AgentState) : String :=
  if s.needs_clarification then "clarify_agent" else "planner"

/-- `route_after_planner` (`workflow.py`). -/
def route_after_planner (s : AgentState) : String := s.next_node.getD "clarify_agent"

/-- `route_after_clarify` (`workflow.py`). -/
def route_after_clarify (s : AgentState) : String :=
  if s.needs_clarification then "end" else s.next_node.getD "end"

/-- One LangGraph step of the enhanced workflow: run the current
node, then follow its conditional routing function or its fixed
`add_edge` edge, exactly as wired in `build_enhanced_workflow`. -/
def stepEnhanced (o : Oracle) : String × AgentState → String × AgentState
  | (node, s) =>
    match node with
    | "router" => let t := router_node s; (route_after_router t, t)
    | "metadata_retriever" => let t := enhanced_metadata_retriever_node o s; (route_after_metadata t, t)
    | "planner" => let t := planner_node s; (route_after_planner t, t)
    | "sql_agent" => let t := enhanced_sql_agent_node o s; ("sql_executor", t)
    | "sql_executor" => let t := sql_executor_node o s; ("response_formatter", t)
    | "forecast_agent" => let t := enhanced_forecast_agent_node o s; ("response_formatter", t)
    | "clarify_agent" => let t := clarify_agent_node o s; (route_after_clarify t, t)
    | "response_formatter" => let t := response_formatter_node o s; ("end", t)
    | "error_handler" => let t := error_handler_node s; ("end", t)
    | _ => (node, s)

/-- Run the workflow graph for at most `fuel` steps, stopping at the
`end` node (`end_node` itself only logs and changes nothing). -/
def runNodes (o : Oracle) : Nat → String × AgentState → String × AgentState
  | 0, p => p
  | fuel + 1, (node, s) =>
    if node = "end" then (node, s) else runNodes o fuel (stepEnhanced o (node, s))

/-- A full enhanced-workflow run on a fresh state (12 steps of fuel
dominate every path of the graph from a fresh state). -/
def runEnhanced (o : Oracle) (q : String) (region : Option String) : String × AgentState :=
  runNodes o 12 ("router", initState q region)

/-- `runNodes`, also accumulating the list of nodes entered. -/
def runNodesT (o : Oracle) : Nat → String × AgentState → List String → (String × AgentState) × List String
  | 0, p, acc => (p, acc.reverse)
  | fuel + 1, (node, s), acc =>
    if node = "end" then ((node, s), (node :: acc).reverse)
    else runNodesT o fuel (stepEnhanced o (node, s)) (node :: acc)

/-- A full enhanced-workflow run with its node trace. -/
def runEnhancedTrace (o : Oracle) (q : String) (region : Option String) :
    (String × AgentState) × List String :=
  runNodesT o 12 ("router", initState q region) []

/-- The failure condition of the selector's language-model exchange:
the call failed, no JSON object parsed, the index field was missing
or non-integer, or the integer index was out of the 1-based range. -/
def selectorFailed (outcome : SelOutcome) (n : Nat) : Prop :=
  match outcome with
  | .llmFail _ => True
  | .parseFail _ => True
  | .parsed none _ _ => True
  | .parsed (some i) _ _ => ¬(1 ≤ i ∧ i ≤ (n : Int))

instance (outcome : SelOutcome) (n : Nat) : Decidable (selectorFailed outcome n) := by
  unfold selectorFailed
  match outcome with
  | .llmFail _ => exact inferInstance
  | .parseFail _ => exact inferInstance
  | .parsed none _ _ => exact inferInstance
  | .parsed (some i) _ _ => exact inferInstance

/-- The history of the claims' forecast scenario: values
`[10, 12, 14]` observed at years `[2019, 2020, 2021]`. -/
def histC : List (Option Rat × Option Rat) :=
  [(some 2019, some 10), (some 2020, some 12), (some 2021, some 14)]

/-- An oracle on which every external service call fails, the ranker
returns no tables, and the web search yields no usable answer. -/
def oracleAllFail : Oracle :=
  { ranker := []
    selector := .llmFail "service unavailable"
    metaLookup := none
    sqlLLM := .err "service unavailable"
    exec := .err "service unavailable"
    forecast := .err "service unavailable"
    web := "Pencarian tidak menghasilkan apa-apa."
    clarifyLLM := .err "timeout"
    formatLLM := .err "service unavailable" }

/-- Well-formedness of the external services: a successful
answer-composition response carries non-empty text (the model-client
contract; an empty reply would be reported as a failure). -/
def wfOracle (o : Oracle) : Prop :=
  (match o.clarifyLLM with | .ok c => c ≠ "" | .err _ => True) ∧
  (match o.formatLLM with | .ok c => c ≠ "" | .err _ => True)

instance (o : Oracle) : Decidable (wfOracle o) := by
  unfold wfOracle
  cases o.clarifyLLM <;> cases o.formatLLM <;> exact inferInstance

/-! ## Theorems -/

/-! ### C5 — singleton candidate lists -/

/-- C5.  For every candidate list of size exactly 1, the table
selector returns that single candidate with confidence 1.0, and does
not issue any request to the language-model service: the result is
the same for every service outcome and carries `llm_called = false`. -/
theorem c5_singleton_candidate_no_llm (q : String) (c : Candidate)
    (ctx : Option String) (outcome : SelOutcome) :
    select_best_table q [c] ctx outcome =
      { selected := some c, confidence := 1,
        reason := "Only one candidate table available", llm_called := false } := rfl

/-! ### C6 — multi-candidate fallback -/

/-- C6.  For every multi-candidate selection whose language-model
exchange fails (service failure, JSON parse failure, or out-of-range
index), the selector returns — it is a total function, so it never
raises — the candidate with the highest relevance score, tagged with
the fixed low confidence 0.3. -/
theorem c6_selector_fallback (q : String) (ctx : Option String)
    (c c2 : Candidate) (rest : List Candidate) (outcome : SelOutcome)
    (h : selectorFailed outcome (c :: c2 :: rest).length) :
    (select_best_table q (c :: c2 :: rest) ctx outcome).selected =
        some (maxByRelevance c (c2 :: rest)) ∧
    (select_best_table q (c :: c2 :: rest) ctx outcome).confidence = 3 / 10 := by
  cases outcome with
  | llmFail e => exact ⟨rfl, rfl⟩
  | parseFail e => exact ⟨rfl, rfl⟩
  | parsed idx conf reason =>
    cases idx with
    | none => exact ⟨rfl, rfl⟩
    | some i =>
      simp only [selectorFailed] at h
      simp only [select_best_table]
      rw [if_neg h]
      exact ⟨rfl, rfl⟩

/-- C6 witness: service reply with index 99 over two candidates
falls back to the higher-relevance candidate at confidence 0.3. -/
theorem c6_selector_fallback_witness :
    selectorFailed (.parsed (some 99) (1/2) "r") 2 ∧
    (select_best_table "q" [⟨"a", ⟨none⟩, 1⟩, ⟨"b", ⟨none⟩, 2⟩] none
        (.parsed (some 99) (1/2) "r")).selected = some ⟨"b", ⟨none⟩, 2⟩ ∧
    (select_best_table "q" [⟨"a", ⟨none⟩, 1⟩, ⟨"b", ⟨none⟩, 2⟩] none
        (.parsed (some 99) (1/2) "r")).confidence = 3 / 10 := by
  refine ⟨by decide, ?_⟩
  have h := c6_selector_fallback "q" none ⟨"a", ⟨none⟩, 1⟩ ⟨"b", ⟨none⟩, 2⟩ []
    (.parsed (some 99) (1/2) "r") (by decide)
  exact ⟨by rw [h.1]; decide, h.2⟩

/-! ### C10 — empty access column / region leave the statement alone -/

/-- C10.  Region-filter injection with an empty access column or an
empty region returns the statement completely unchanged, and the
synthesizing node's post-processing applies no region restriction —
only the limit post-processing — whenever the access column or the
caller region is missing or empty. -/
theorem c10_empty_access_column_frame (sql c r raw : String)
    (ac reg : Option String) :
    inject_region_filter sql "" r = sql ∧
    inject_region_filter sql c "" = sql ∧
    sqlAgentPostprocess raw none reg = add_limit_if_missing raw ∧
    sqlAgentPostprocess raw (some "") reg = add_limit_if_missing raw ∧
    sqlAgentPostprocess raw ac none = add_limit_if_missing raw ∧
    sqlAgentPostprocess raw ac (some "") = add_limit_if_missing raw := by
  refine ⟨?_, ?_, ?_, ?_, ?_, ?_⟩
  · simp [inject_region_filter]
  · simp [inject_region_filter]
  · simp [sqlAgentPostprocess, truthy]
  · simp [sqlAgentPostprocess, truthy]
  · simp [sqlAgentPostprocess, truthy]
  · simp [sqlAgentPostprocess, truthy]

/-! ### C1 / C2 — the forecasting engine -/

/-- Evaluation of the engine on the scenario history, 2 periods:
the fitted line `y = 2·x − 4028` continued at 2022 and 2023. -/
lemma forecast_histC_two :
    simple_linear_forecast histC 2 =
      .ok [("Periode 1", (16 : Rat)), ("Periode 2", (18 : Rat))] := by
  norm_num [simple_linear_forecast, histC, olsSlope, olsIntercept, olsDenom,
    MIN_DATA_POINTS, List.filterMap_cons, List.range_succ]
  exact ⟨rfl, rfl⟩

/-- Evaluation of the engine on the scenario history, 3 periods. -/
lemma forecast_histC_three :
    simple_linear_forecast histC 3 =
      .ok [("Periode 1", (16 : Rat)), ("Periode 2", (18 : Rat)), ("Periode 3", (20 : Rat))] := by
  norm_num [simple_linear_forecast, histC, olsSlope, olsIntercept, olsDenom,
    MIN_DATA_POINTS, List.filterMap_cons, List.range_succ]
  exact ⟨rfl, rfl, rfl⟩

/-- C1 counterexample.  On history `[10, 12, 14]` with 2 periods the
engine predicts `16.0` then `18.0` — the extrapolated least-squares
line — not the recursive moving-average values `12.0` and
`12.67` (nor the unrounded `38/3`) the claim states. -/
theorem c1_moving_average_refuted :
    simple_linear_forecast histC 2 =
      .ok [("Periode 1", (16 : Rat)), ("Periode 2", (18 : Rat))] ∧
    (simple_linear_forecast histC 2).toOption.map (fun l => l.map Prod.snd) ≠
      some [(12 : Rat), 1267 / 100] ∧
    (simple_linear_forecast histC 2).toOption.map (fun l => l.map Prod.snd) ≠
      some [(12 : Rat), 38 / 3] := by
  refine ⟨forecast_histC_two, ?_, ?_⟩ <;> rw [forecast_histC_two] <;>
    norm_num [Except.toOption]

/-- C2 counterexample.  With history years `[2019, 2020, 2021]` and
three periods the labels are `Periode 1..3`, not the next sequential
years `2022, 2023, 2024`. -/
theorem c2_year_labels_refuted :
    (simple_linear_forecast histC 3).toOption.map (fun l => l.map Prod.fst) =
      some ["Periode 1", "Periode 2", "Periode 3"] ∧
    (simple_linear_forecast histC 3).toOption.map (fun l => l.map Prod.fst) ≠
      some ["2022", "2023", "2024"] := by
  rw [forecast_histC_three]
  refine ⟨by simp [Except.toOption], by simp [Except.toOption]⟩

/-- C2 amended.  Every successful forecast labels its periods
`Periode 1, …, Periode N`, regardless of the historical date values;
year-based labels are never produced. -/
theorem c2_labels_always_generic (df : List (Option Rat × Option Rat))
    (periods : Nat) (l : List (String × Rat))
    (h : simple_linear_forecast df periods = .ok l) :
    l.map Prod.fst = (List.range periods).map (fun i => "Periode " ++ toString (i + 1)) := by
  unfold simple_linear_forecast at h
  split at h
  · exact absurd h (by simp)
  · dsimp only at h
    split at h
    · exact absurd h (by simp)
    · simp only [Except.ok.injEq] at h
      subst h
      rw [List.map_map]
      rfl

/-- C2 witness: the generic labels on the concrete year history. -/
theorem c2_labels_always_generic_witness :
    simple_linear_forecast histC 3 =
      .ok [("Periode 1", (16 : Rat)), ("Periode 2", (18 : Rat)), ("Periode 3", (20 : Rat))] ∧
    [("Periode 1", (16 : Rat)), ("Periode 2", (18 : Rat)), ("Periode 3", (20 : Rat))].map Prod.fst =
      (List.range 3).map (fun i => "Periode " ++ toString (i + 1)) :=
  ⟨forecast_histC_three, c2_labels_always_generic histC 3 _ forecast_histC_three⟩

/-- Dropping non-numeric rows from an all-numeric frame recovers the
`(date, value)` pairs. -/
lemma filterMap_somePair (a b : Rat) (xs : List Rat) :
    (xs.map (fun x => ((some x : Option Rat), (some (a * x + b) : Option Rat)))).filterMap
      (fun p => match p with | (some d, some v) => some (d, v) | _ => none) =
    xs.map (fun x => (x, a * x + b)) := by
  induction xs with
  | nil => rfl
  | cons x t ih => simp [List.filterMap_cons, ih]

/-- First projections of the paired frame. -/
lemma map_pair_fst (a b : Rat) (xs : List Rat) :
    (xs.map (fun x => (x, a * x + b))).map Prod.fst = xs := by
  induction xs with
  | nil => rfl
  | cons x t ih => simp [ih]

/-- Second projections of the paired frame. -/
lemma map_pair_snd (a b : Rat) (xs : List Rat) :
    (xs.map (fun x => (x, a * x + b))).map Prod.snd = xs.map (fun x => a * x + b) := by
  induction xs with
  | nil => rfl
  | cons x t ih => simp [ih]

/-- Fused form of `map_pair_fst`. -/
lemma map_pair_fst_comp (a b : Rat) (xs : List Rat) :
    List.map (Prod.fst ∘ fun x => (x, a * x + b)) xs = xs := by
  induction xs with
  | nil => rfl
  | cons x t ih => simp only [List.map_cons, ih]; rfl

/-- Fused form of `map_pair_snd`. -/
lemma map_pair_snd_comp (a b : Rat) (xs : List Rat) :
    List.map (Prod.snd ∘ fun x => (x, a * x + b)) xs = xs.map (fun x => a * x + b) := by
  induction xs with
  | nil => rfl
  | cons x t ih => simp only [List.map_cons, ih]; rfl

/-- Fused products of the paired frame. -/
lemma map_pair_mul_comp (a b : Rat) (xs : List Rat) :
    List.map ((fun p => p.1 * p.2) ∘ fun x => (x, a * x + b)) xs =
      xs.map (fun x => x * (a * x + b)) := by
  induction xs with
  | nil => rfl
  | cons x t ih => simp only [List.map_cons, ih]; rfl

/-- Sum of an affine image. -/
lemma sum_affine (a b : Rat) (xs : List Rat) :
    (xs.map (fun x => a * x + b)).sum = a * xs.sum + b * (xs.length : Rat) := by
  induction xs with
  | nil => simp
  | cons x t ih =>
    simp only [List.map_cons, List.sum_cons, ih, List.length_cons]
    push_cast
    ring

/-- Sum of `x · (a·x + b)`. -/
lemma sum_mul_affine (a b : Rat) (xs : List Rat) :
    (xs.map (fun x => x * (a * x + b))).sum =
      a * (xs.map (fun x => x * x)).sum + b * xs.sum := by
  induction xs with
  | nil => simp
  | cons x t ih =>
    simp only [List.map_cons, List.sum_cons, ih]
    ring

/-- On data lying exactly on the line `y = a·x + b` (with a
non-degenerate date column) the least-squares slope is `a`. -/
lemma olsSlope_line (a b : Rat) (xs : List Rat) (hden : olsDenom xs ≠ 0) :
    olsSlope (xs.map (fun x => (x, a * x + b))) = a := by
  unfold olsSlope
  simp only [List.map_map, List.length_map]
  rw [map_pair_fst_comp, map_pair_snd_comp, map_pair_mul_comp]
  rw [sum_mul_affine, sum_affine, if_neg hden, div_eq_iff hden]
  unfold olsDenom
  ring

/-- On exact-line data the least-squares intercept is `b`. -/
lemma olsIntercept_line (a b : Rat) (xs : List Rat)
    (hn : (xs.length : Rat) ≠ 0) (hden : olsDenom xs ≠ 0) :
    olsIntercept (xs.map (fun x => (x, a * x + b))) = b := by
  unfold olsIntercept
  rw [olsSlope_line a b xs hden]
  simp only [List.map_map, List.length_map]
  rw [map_pair_fst_comp, map_pair_snd_comp]
  rw [sum_affine]
  field_simp

/-- C1 amended.  The engine forecasts by extrapolating the fitted
least-squares line at `last_date + i + 1`: every history lying
exactly on a line `y = a·x + b` (at least the minimum number of
points, non-degenerate dates) is continued along that same line. -/
theorem c1_linear_fit_extrapolation (a b : Rat) (xs : List Rat) (periods : Nat)
    (hlen : MIN_DATA_POINTS ≤ xs.length) (hden : olsDenom xs ≠ 0) :
    simple_linear_forecast (xs.map (fun x => (some x, some (a * x + b)))) periods =
      .ok ((List.range periods).map (fun (i : Nat) =>
        ("Periode " ++ toString (i + 1), a * (xs.getLast?.getD 0 + (i : Rat) + 1) + b))) := by
  unfold simple_linear_forecast
  rw [if_neg (by simp only [List.length_map]; omega)]
  rw [filterMap_somePair]
  dsimp only
  rw [if_neg (by simp only [List.length_map]; omega)]
  rw [olsSlope_line a b xs hden,
    olsIntercept_line a b xs (by
      have : 0 < xs.length := by
        have := hlen
        simp [MIN_DATA_POINTS] at this
        omega
      exact_mod_cast Nat.pos_iff_ne_zero.mp this) hden,
    map_pair_fst]
  congr 1
  apply List.map_congr_left
  intro i _
  rw [add_comm b (a * (xs.getLast?.getD 0 + (i : Rat) + 1))]

/-- C1 witness: the scenario history lies on `y = 2·x − 4028`; the
engine continues that line at 2022 and 2023. -/
theorem c1_linear_fit_extrapolation_witness :
    MIN_DATA_POINTS ≤ ([2019, 2020, 2021] : List Rat).length ∧
    olsDenom [2019, 2020, 2021] ≠ 0 ∧
    simple_linear_forecast
        (([2019, 2020, 2021] : List Rat).map (fun x => (some x, some (2 * x + -4028)))) 2 =
      .ok ((List.range 2).map (fun (i : Nat) =>
        ("Periode " ++ toString (i + 1),
          2 * (([2019, 2020, 2021] : List Rat).getLast?.getD 0 + (i : Rat) + 1) + -4028))) := by
  have hden : olsDenom ([2019, 2020, 2021] : List Rat) ≠ 0 := by
    norm_num [olsDenom]
  have hlen : MIN_DATA_POINTS ≤ ([2019, 2020, 2021] : List Rat).length := by
    simp [MIN_DATA_POINTS]
  exact ⟨hlen, hden, c1_linear_fit_extrapolation 2 (-4028) [2019, 2020, 2021] 2 hlen hden⟩

/-! ### C7 — whole-word keyword rejection -/

/-- String concatenation concatenates the character lists. -/
lemma toList_strApp (a b : String) : (a ++ b).toList = a.toList ++ b.toList := by
  cases a
  cases b
  rfl

/-- When the lowered, stripped statement starts with `select` and the
keyword scan finds `k`, validation stops with the reason naming
`k`. -/
lemma validate_keyword_of_find (sql : String) (k : String)
    (h1 : "select".toList.isPrefixOf (stripL (toLowerL sql.toList)) = true)
    (hk : FORBIDDEN_KEYWORDS.find?
        (fun kw => containsWholeWord kw.toList (stripL (toLowerL sql.toList))) = some k) :
    validate_sql sql = ⟨false, "Contains forbidden keyword: " ++ k⟩ := by
  have h1d : "select".data.isPrefixOf (stripL (toLowerL sql.data)) = true := h1
  have h1s : ("select".data.isPrefixOf (stripL (toLowerL sql.data)) = false) = False := by
    rw [h1d]
    simp
  have hks : List.find? (fun kw => containsWholeWord kw.data (stripL (toLowerL sql.data)))
      FORBIDDEN_KEYWORDS = some k := hk
  simp [validate_sql, h1s, hks]

/-- A string differing from `"Contains forbidden keyword: "` at some
position inside that text cannot equal a keyword-naming reason,
whatever the keyword. -/
lemma ne_keyword_reason_at (r kw : String) (i : Nat)
    (hi : i < "Contains forbidden keyword: ".toList.length)
    (h0 : r.toList[i]? ≠ "Contains forbidden keyword: ".toList[i]?) :
    r ≠ "Contains forbidden keyword: " ++ kw := by
  intro h
  apply h0
  have hc : r.toList[i]? = ("Contains forbidden keyword: " ++ kw).toList[i]? :=
    congrArg (fun s => s.toList[i]?) h
  rw [toList_strApp, List.getElem?_append_left hi] at hc
  exact hc

/-- With the `SELECT` prefix present and no whole-word keyword found,
validation falls through to one of the four later outcomes. -/
lemma validate_sql_after_keywords (sql : String)
    (h1 : "select".toList.isPrefixOf (stripL (toLowerL sql.toList)) = true)
    (hfind : FORBIDDEN_KEYWORDS.find?
        (fun kw => containsWholeWord kw.toList (stripL (toLowerL sql.toList))) = none) :
    validate_sql sql = ⟨false, "Contains dangerous SQL pattern"⟩ ∨
    validate_sql sql = ⟨false, "Query missing FROM clause"⟩ ∨
    validate_sql sql = ⟨false, "Multiple SQL statements detected"⟩ ∨
    validate_sql sql = ⟨true, "Query is safe"⟩ := by
  simp only [validate_sql]
  rw [h1, hfind]
  split_ifs <;> simp_all

/-- C7 counterexample.  `"drop table t"` contains the denylisted
keyword `drop` as a standalone whole word, yet the validator's
rejection does not name it: the `SELECT`-prefix check fires first. -/
theorem c7_whole_word_iff_refuted :
    containsWholeWord "drop".toList (stripL (toLowerL "drop table t".toList)) = true ∧
    validate_sql "drop table t" = ⟨false, "Only SELECT queries are allowed"⟩ ∧
    (validate_sql "drop table t").reason ≠ "Contains forbidden keyword: drop" :=
  ⟨by decide, by decide, by decide⟩

/-- C7 amended.  For every statement that passes the `SELECT`-prefix
check: the validator rejects it with a reason naming some keyword
exactly when the statement contains some denylisted keyword as a
standalone whole word; and any keyword the rejection reason names is
itself a denylisted keyword occurring as a standalone whole word — so
a keyword embedded in a larger identifier (as `update` inside
`update_ts`) never triggers the keyword rejection. -/
theorem c7_select_whole_word_iff (sql : String)
    (hsel : "select".toList.isPrefixOf (stripL (toLowerL sql.toList)) = true) :
    ((∃ kw ∈ FORBIDDEN_KEYWORDS,
        containsWholeWord kw.toList (stripL (toLowerL sql.toList)) = true) ↔
      (∃ kw : String, (validate_sql sql).is_valid = false ∧
        (validate_sql sql).reason = "Contains forbidden keyword: " ++ kw)) ∧
    (∀ kw : String,
      (validate_sql sql).reason = "Contains forbidden keyword: " ++ kw →
      kw ∈ FORBIDDEN_KEYWORDS ∧
        containsWholeWord kw.toList (stripL (toLowerL sql.toList)) = true) := by
  have key : ∀ kw : String,
      (validate_sql sql).reason = "Contains forbidden keyword: " ++ kw →
      kw ∈ FORBIDDEN_KEYWORDS ∧
        containsWholeWord kw.toList (stripL (toLowerL sql.toList)) = true := by
    intro kw hr
    cases hfind : FORBIDDEN_KEYWORDS.find?
        (fun k => containsWholeWord k.toList (stripL (toLowerL sql.toList))) with
    | some k0 =>
      have hval := validate_keyword_of_find sql k0 hsel hfind
      have hr0 : "Contains forbidden keyword: " ++ k0 =
          "Contains forbidden keyword: " ++ kw := by
        rw [hval] at hr
        exact hr
      have hlist := congrArg String.toList hr0
      rw [toList_strApp, toList_strApp] at hlist
      have hkk : k0 = kw := String.ext (List.append_cancel_left hlist)
      have hpk := List.find?_some hfind
      rw [← hkk]
      exact ⟨List.mem_of_find?_eq_some hfind, hpk⟩
    | none =>
      exfalso
      rcases validate_sql_after_keywords sql hsel hfind with hv | hv | hv | hv
      · rw [hv] at hr
        exact ne_keyword_reason_at "Contains dangerous SQL pattern" kw 9
          (by decide) (by decide) hr
      · rw [hv] at hr
        exact ne_keyword_reason_at "Query missing FROM clause" kw 0
          (by decide) (by decide) hr
      · rw [hv] at hr
        exact ne_keyword_reason_at "Multiple SQL statements detected" kw 0
          (by decide) (by decide) hr
      · rw [hv] at hr
        exact ne_keyword_reason_at "Query is safe" kw 0
          (by decide) (by decide) hr
  refine ⟨⟨?_, ?_⟩, key⟩
  · intro h
    have hs : (FORBIDDEN_KEYWORDS.find?
        (fun kw => containsWholeWord kw.toList (stripL (toLowerL sql.toList)))).isSome := by
      rw [List.find?_isSome]
      exact h
    obtain ⟨k, hk⟩ := Option.isSome_iff_exists.mp hs
    have hval := validate_keyword_of_find sql k hsel hk
    refine ⟨k, ?_, ?_⟩ <;> simp [hval]
  · rintro ⟨kw, _, hr⟩
    obtain ⟨hmem, hcw⟩ := key kw hr
    exact ⟨kw, hmem, hcw⟩

/-- C7 witness: `select drop from t` is rejected with a reason naming
a keyword, while `update` embedded in the identifier `update_ts` is
not a whole-word occurrence and that statement validates cleanly; by
the theorem its reason could name no keyword. -/
theorem c7_select_whole_word_iff_witness :
    "select".toList.isPrefixOf (stripL (toLowerL "select drop from t".toList)) = true ∧
    (∃ kw : String, (validate_sql "select drop from t").is_valid = false ∧
        (validate_sql "select drop from t").reason = "Contains forbidden keyword: " ++ kw) ∧
    containsWholeWord "update".toList (stripL (toLowerL "select update_ts from t".toList)) = false ∧
    validate_sql "select update_ts from t" = ⟨true, "Query is safe"⟩ ∧
    (∀ kw : String,
      (validate_sql "select update_ts from t").reason = "Contains forbidden keyword: " ++ kw →
      kw ∈ FORBIDDEN_KEYWORDS ∧
        containsWholeWord kw.toList (stripL (toLowerL "select update_ts from t".toList)) = true) := by
  refine ⟨by decide, ?_, by decide, by decide, ?_⟩
  · exact (c7_select_whole_word_iff "select drop from t" (by decide)).1.mp
      ⟨"drop", by decide, by decide⟩
  · exact (c7_select_whole_word_iff "select update_ts from t" (by decide)).2

/-! ### C8 — limit-clause post-processing -/

/-- `containsSub` is the infix relation. -/
lemma containsSub_infix_iff (pat s : List Char) : containsSub pat s = true ↔ pat <:+: s := by
  induction s with
  | nil => simp [containsSub, List.isPrefixOf_iff_prefix]
  | cons c t ih => simp [containsSub, List.isPrefixOf_iff_prefix, List.infix_cons_iff, ih]

/-- Stripping trailing semicolons yields a prefix. -/
lemma prefix_rstripSemiL (l : List Char) : rstripSemiL l <+: l := by
  unfold rstripSemiL
  have h := List.dropWhile_suffix (l := l.reverse) (fun c => c = ';')
  have h2 := List.reverse_prefix.mpr h
  simpa using h2

/-- `strip` yields an infix. -/
lemma infix_stripL (l : List Char) : stripL l <:+: l := by
  unfold stripL
  have h1 : l.dropWhile isPySpace <:+ l := List.dropWhile_suffix isPySpace
  have h2 : ((l.dropWhile isPySpace).reverse.dropWhile isPySpace).reverse <+:
      l.dropWhile isPySpace := by
    have h := List.dropWhile_suffix (l := (l.dropWhile isPySpace).reverse) isPySpace
    have h2 := List.reverse_prefix.mpr h
    simpa using h2
  exact h2.isInfix.trans h1.isInfix

/-- A substring absent from `s` is absent from every infix of `s`. -/
lemma not_containsSub_of_infix (pat s t : List Char) (hts : t <:+: s)
    (h : containsSub pat s = false) : containsSub pat t = false := by
  cases hct : containsSub pat t with
  | false => rfl
  | true =>
    have h1 := ((containsSub_infix_iff pat t).mp hct).trans hts
    rw [(containsSub_infix_iff pat s).mpr h1] at h
    exact absurd h (by simp)

/-- Evaluating the whole-word count on the appended clause text:
exactly one occurrence, whatever character preceded it. -/
lemma countWW_tail (prev : Option Char) :
    countWholeWordAux "limit".toList prev (" limit 5;".toList) = 1 := by
  have h1 : ("limit".toList.isPrefixOf (" limit 5;".toList)) = false := by decide
  have step : countWholeWordAux "limit".toList prev (" limit 5;".toList) =
      (if "limit".toList.isPrefixOf (" limit 5;".toList) && boundaryOk prev &&
          boundaryOk ((" limit 5;".toList).drop "limit".toList.length).head? then 1 else 0) +
        countWholeWordAux "limit".toList (some ' ') ("limit 5;".toList) := rfl
  rw [step, h1]
  simp only [Bool.false_and, Bool.false_eq_true, if_false, Nat.zero_add]
  decide

/-- The straddle argument: when `limit` does not occur in `B`, the
whole-word count of `B ++ " limit 5;"` is exactly the single
occurrence inside the appended clause. -/
lemma countWW_append (B : List Char) (hB : containsSub "limit".toList B = false) :
    ∀ prev, countWholeWordAux "limit".toList prev (B ++ " limit 5;".toList) = 1 := by
  induction B with
  | nil =>
    intro prev
    exact countWW_tail prev
  | cons c B' ih =>
    intro prev
    have h0 : "limit".toList.isPrefixOf (c :: B') = false ∧
        containsSub "limit".toList B' = false := by
      have : ("limit".toList.isPrefixOf (c :: B') || containsSub "limit".toList B') = false := hB
      exact Bool.or_eq_false_iff.mp this
    have hp : "limit".toList.isPrefixOf (c :: B' ++ " limit 5;".toList) = false := by
      cases hcon : "limit".toList.isPrefixOf (c :: B' ++ " limit 5;".toList) with
      | false => rfl
      | true =>
        exfalso
        have hpre : "limit".toList <+: (c :: B') ++ " limit 5;".toList :=
          List.isPrefixOf_iff_prefix.mp hcon
        by_cases hlen : "limit".toList.length ≤ (c :: B').length
        · have hf : "limit".toList <+: (c :: B') :=
            List.prefix_of_prefix_length_le hpre (List.prefix_append _ _) hlen
          rw [← List.isPrefixOf_iff_prefix] at hf
          rw [hf] at h0
          exact absurd h0.1 (by simp)
        · push_neg at hlen
          have hcb : (c :: B') <+: "limit".toList :=
            List.prefix_of_prefix_length_le (List.prefix_append _ _) hpre (le_of_lt hlen)
          obtain ⟨d, hd⟩ := hcb
          have hdpre : d <+: " limit 5;".toList := by
            rw [← hd] at hpre
            exact (List.prefix_append_right_inj (c :: B')).mp hpre
          have hdne : d ≠ [] := by
            intro hnil
            rw [hnil, List.append_nil] at hd
            have hlen2 : (c :: B').length = "limit".toList.length := by rw [hd]
            omega
          obtain ⟨e, d', rfl⟩ := List.exists_cons_of_ne_nil hdne
          have he : e = ' ' := by
            obtain ⟨u, hu⟩ := hdpre
            have hh := congrArg (fun l => l.head?) hu
            simp at hh
            exact hh
          have hmem : e ∈ "limit".toList := by
            rw [← hd]
            simp
          rw [he] at hmem
          exact absurd hmem (by decide)
    have step : countWholeWordAux "limit".toList prev ((c :: B') ++ " limit 5;".toList) =
        (if "limit".toList.isPrefixOf (c :: B' ++ " limit 5;".toList) && boundaryOk prev &&
            boundaryOk (((c :: B') ++ " limit 5;".toList).drop "limit".toList.length).head?
          then 1 else 0) +
          countWholeWordAux "limit".toList (some c) (B' ++ " limit 5;".toList) := rfl
    rw [step, hp]
    simp only [Bool.false_and, Bool.false_eq_true, if_false, Nat.zero_add]
    exact ih h0.2 (some c)

/-- The appended statement text, as character lists. -/
lemma add_limit_toList (sql : String)
    (h : containsSub "limit".toList (toLowerL sql.toList) = false) :
    (add_limit_if_missing sql).toList =
      stripL (rstripSemiL sql.toList) ++ " LIMIT 5;".toList := by
  unfold add_limit_if_missing
  rw [h]
  simp only [Bool.false_eq_true, if_false]
  rw [toList_strApp, toList_strApp, toList_strApp,
    show (String.mk (stripL (rstripSemiL sql.toList))).toList = stripL (rstripSemiL sql.toList) from rfl,
    List.append_assoc, List.append_assoc]
  congr 1

/-- C8 counterexample.  `select unlimited from t` passes validation,
is returned unchanged by the limit post-processing (`limit` occurs
as a substring of the identifier `unlimited`), and contains zero
whole-word `limit` clauses — not exactly one. -/
theorem c8_exactly_one_limit_refuted :
    (validate_sql "select unlimited from t").is_valid = true ∧
    add_limit_if_missing "select unlimited from t" = "select unlimited from t" ∧
    countWholeWord "limit".toList (toLowerL "select unlimited from t".toList) = 0 :=
  ⟨by decide, by decide, by decide⟩

/-- C8 amended.  After post-processing, the statement always
contains the substring `limit` (case-insensitively): a statement
already containing it is returned unchanged, and otherwise exactly
one whole-word `LIMIT` clause is appended. -/
theorem c8_limit_postprocessing (sql : String)
    (hv : (validate_sql sql).is_valid = true) :
    (containsSub "limit".toList (toLowerL sql.toList) = true →
      add_limit_if_missing sql = sql) ∧
    (containsSub "limit".toList (toLowerL sql.toList) = false →
      countWholeWord "limit".toList (toLowerL (add_limit_if_missing sql).toList) = 1) ∧
    containsSub "limit".toList (toLowerL (add_limit_if_missing sql).toList) = true := by
  have hsame : containsSub "limit".toList (toLowerL sql.toList) = true →
      add_limit_if_missing sql = sql := by
    intro h
    unfold add_limit_if_missing
    rw [h]
    simp
  have happ := add_limit_toList sql
  refine ⟨hsame, ?_, ?_⟩
  · intro h
    unfold countWholeWord
    rw [happ h]
    unfold toLowerL
    rw [List.map_append]
    have htail : List.map lowerChar (" LIMIT 5;".toList) = " limit 5;".toList := by decide
    rw [htail]
    have hB : containsSub "limit".toList (List.map lowerChar (stripL (rstripSemiL sql.toList))) = false := by
      have hinf : stripL (rstripSemiL sql.toList) <:+: sql.toList :=
        (infix_stripL (rstripSemiL sql.toList)).trans (prefix_rstripSemiL sql.toList).isInfix
      exact not_containsSub_of_infix _ _ _ (hinf.map lowerChar) h
    exact countWW_append _ hB none
  · cases h : containsSub "limit".toList (toLowerL sql.toList) with
    | true => rw [hsame h]; exact h
    | false =>
      rw [containsSub_infix_iff]
      have h1 : ("limit".toList : List Char) <:+: " limit 5;".toList := by
        have : containsSub "limit".toList (" limit 5;".toList) = true := by decide
        exact (containsSub_infix_iff _ _).mp this
      have h2 : (" limit 5;".toList : List Char) <:+:
          toLowerL (add_limit_if_missing sql).toList := by
        unfold toLowerL
        rw [happ h, List.map_append]
        have htail : List.map lowerChar (" LIMIT 5;".toList) = " limit 5;".toList := by decide
        rw [htail]
        exact (List.suffix_append _ _).isInfix
      exact h1.trans h2

/-- C8 witness: `select a from t` validates, lacks `limit`, and
post-processing appends exactly one whole-word `LIMIT` clause. -/
theorem c8_limit_postprocessing_witness :
    (validate_sql "select a from t").is_valid = true ∧
    containsSub "limit".toList (toLowerL "select a from t".toList) = false ∧
    countWholeWord "limit".toList (toLowerL (add_limit_if_missing "select a from t").toList) = 1 := by
  refine ⟨by decide, by decide, ?_⟩
  exact (c8_limit_postprocessing "select a from t" (by decide)).2.1 (by decide)

/-! ### C9 — idempotence of region-filter injection -/

/-- The searched text occurs right here. -/
lemma existsSub_self (b t : List Char) : existsSubNoNewlineBefore b (b ++ t) = true := by
  have hpre : b.isPrefixOf (b ++ t) = true :=
    List.isPrefixOf_iff_prefix.mpr (List.prefix_append b t)
  cases hbt : b ++ t with
  | nil =>
    rw [hbt] at hpre
    unfold existsSubNoNewlineBefore
    exact hpre
  | cons x rest =>
    rw [hbt] at hpre
    simp [existsSubNoNewlineBefore, hpre]

/-- Scanning over a non-newline character. -/
lemma existsSub_skip (b : List Char) (x : Char) (t : List Char)
    (hx : ¬(x = Char.ofNat 10)) (h : existsSubNoNewlineBefore b t = true) :
    existsSubNoNewlineBefore b (x :: t) = true := by
  simp [existsSubNoNewlineBefore, hx, h]

/-- One unfolding of the `where…column` regex scan. -/
lemma whereThenCol_cons_eq (colL : List Char) (c : Char) (rest : List Char) :
    whereThenCol colL (c :: rest) =
      (("where".toList.isPrefixOf (c :: rest) &&
        existsSubNoNewlineBefore colL ((c :: rest).drop 5)) || whereThenCol colL rest) := rfl

/-- The scan succeeds on the lowered injected text
`where {col}…`. -/
lemma whereThenCol_marker (colL z : List Char) :
    whereThenCol colL ('w' :: 'h' :: 'e' :: 'r' :: 'e' :: ' ' :: (colL ++ z)) = true := by
  rw [whereThenCol_cons_eq]
  have h1 : "where".toList.isPrefixOf
      ('w' :: 'h' :: 'e' :: 'r' :: 'e' :: ' ' :: (colL ++ z)) = true := by
    simp [List.isPrefixOf]
  have h2 : existsSubNoNewlineBefore colL
      ((('w' : Char) :: 'h' :: 'e' :: 'r' :: 'e' :: ' ' :: (colL ++ z)).drop 5) = true := by
    simp only [List.drop_succ_cons, List.drop_zero]
    exact existsSub_skip colL ' ' (colL ++ z) (by decide) (existsSub_self colL z)
  rw [h1, h2]
  rfl

/-- The scan is monotone under extending the statement leftwards. -/
lemma whereThenCol_mono (colL : List Char) (c : Char) (t : List Char)
    (h : whereThenCol colL t = true) : whereThenCol colL (c :: t) = true := by
  rw [whereThenCol_cons_eq, h]
  simp

/-- The scan survives an arbitrary prefix. -/
lemma whereThenCol_lift (colL pre t : List Char)
    (h : whereThenCol colL t = true) : whereThenCol colL (pre ++ t) = true := by
  induction pre with
  | nil => simpa using h
  | cons c p ih =>
    rw [List.cons_append]
    exact whereThenCol_mono colL c _ ih

/-- The scan succeeds with a leading space before the marker. -/
lemma whereThenCol_space_marker (colL z : List Char) :
    whereThenCol colL (' ' :: 'w' :: 'h' :: 'e' :: 'r' :: 'e' :: ' ' :: (colL ++ z)) = true :=
  whereThenCol_mono colL ' ' _ (whereThenCol_marker colL z)

/-- Lowered decomposition of the `WHERE … AND` replacement text. -/
lemma lower_whereReplacement (c r : String) : ∃ z,
    List.map lowerChar (whereReplacement c r).toList =
      'w' :: 'h' :: 'e' :: 'r' :: 'e' :: ' ' :: (List.map lowerChar c.toList ++ z) := by
  refine ⟨List.map lowerChar (" LIKE ".toList ++ (quoteStr.toList ++ (r.toList ++
    ("%".toList ++ (quoteStr.toList ++ " AND".toList))))), ?_⟩
  simp only [whereReplacement, toList_strApp, List.map_append, List.append_assoc]
  rw [show List.map lowerChar "WHERE ".toList = ['w', 'h', 'e', 'r', 'e', ' '] from by decide]
  simp only [List.cons_append, List.nil_append]

/-- Lowered decomposition of the inserted ` WHERE … ` text. -/
lemma lower_whereInsertion (c r : String) : ∃ z,
    List.map lowerChar (whereInsertion c r).toList =
      ' ' :: 'w' :: 'h' :: 'e' :: 'r' :: 'e' :: ' ' :: (List.map lowerChar c.toList ++ z) := by
  refine ⟨List.map lowerChar (" LIKE ".toList ++ (quoteStr.toList ++ (r.toList ++
    ("%".toList ++ (quoteStr.toList ++ " ".toList))))), ?_⟩
  simp only [whereInsertion, toList_strApp, List.map_append, List.append_assoc]
  rw [show List.map lowerChar " WHERE ".toList = [' ', 'w', 'h', 'e', 'r', 'e', ' '] from by decide]
  simp only [List.cons_append, List.nil_append]

/-- Lowered decomposition of the appended ` WHERE …;` text. -/
lemma lower_whereAppended (c r : String) : ∃ z,
    List.map lowerChar (whereAppended c r).toList =
      ' ' :: 'w' :: 'h' :: 'e' :: 'r' :: 'e' :: ' ' :: (List.map lowerChar c.toList ++ z) := by
  refine ⟨List.map lowerChar (" LIKE ".toList ++ (quoteStr.toList ++ (r.toList ++
    ("%".toList ++ (quoteStr.toList ++ ";".toList))))), ?_⟩
  simp only [whereAppended, toList_strApp, List.map_append, List.append_assoc]
  rw [show List.map lowerChar " WHERE ".toList = [' ', 'w', 'h', 'e', 'r', 'e', ' '] from by decide]
  simp only [List.cons_append, List.nil_append]

/-- After the case-insensitive first-`where` substitution the scan
finds the access column. -/
lemma replaceFirst_detect (c r : String) : ∀ s : List Char,
    containsSub "where".toList (toLowerL s) = true →
    whereThenCol (toLowerL c.toList)
      (toLowerL (replaceFirstCI "where".toList (whereReplacement c r).toList s)) = true := by
  intro s
  induction s with
  | nil =>
    intro h
    exact absurd h (by decide)
  | cons ch t ih =>
    intro h
    have hstep : replaceFirstCI "where".toList (whereReplacement c r).toList (ch :: t) =
        if "where".toList.isPrefixOf (toLowerL (ch :: t)) then
          (whereReplacement c r).toList ++ (ch :: t).drop "where".toList.length
        else ch :: replaceFirstCI "where".toList (whereReplacement c r).toList t := rfl
    by_cases hp : "where".toList.isPrefixOf (toLowerL (ch :: t)) = true
    · rw [hstep, if_pos hp]
      unfold toLowerL
      rw [List.map_append]
      obtain ⟨z, hz⟩ := lower_whereReplacement c r
      rw [hz]
      simp only [List.cons_append, List.append_assoc]
      exact whereThenCol_marker _ _
    · rw [Bool.not_eq_true] at hp
      rw [hstep, if_neg (by rw [hp]; simp)]
      have ht : containsSub "where".toList (toLowerL t) = true := by
        have hexp : containsSub "where".toList (toLowerL (ch :: t)) =
            ("where".toList.isPrefixOf (toLowerL (ch :: t)) ||
              containsSub "where".toList (toLowerL t)) := rfl
        rw [hexp, hp] at h
        simpa using h
      exact whereThenCol_mono _ _ _ (ih ht)

/-- The scan finds the access column after a mid-statement
insertion. -/
lemma insert_detect (c r : String) (pre post : List Char) :
    whereThenCol (toLowerL c.toList)
      (toLowerL (pre ++ (whereInsertion c r).toList ++ post)) = true := by
  unfold toLowerL
  simp only [List.map_append, List.append_assoc]
  obtain ⟨z, hz⟩ := lower_whereInsertion c r
  rw [hz]
  simp only [List.cons_append, List.append_assoc]
  exact whereThenCol_lift _ (List.map lowerChar pre) _ (whereThenCol_space_marker _ _)

/-- The scan finds the access column after an end-of-statement
append. -/
lemma append_detect (c r : String) (pre : List Char) :
    whereThenCol (toLowerL c.toList)
      (toLowerL (pre ++ (whereAppended c r).toList)) = true := by
  unfold toLowerL
  rw [List.map_append]
  obtain ⟨z, hz⟩ := lower_whereAppended c r
  rw [hz]
  exact whereThenCol_lift _ (List.map lowerChar pre) _ (whereThenCol_space_marker _ _)

/-- After any injection with truthy column and region, the
pre-existing-clause scan succeeds on the result. -/
lemma inject_detect (sql c r : String) (hc : ¬(c = "")) (hr : ¬(r = "")) :
    whereThenCol (toLowerL c.toList)
      (toLowerL (inject_region_filter sql c r).toList) = true := by
  unfold inject_region_filter
  rw [if_neg (by simp [hc, hr])]
  split
  · next hdet => exact hdet
  · next hdet =>
    split
    · next hctn => exact replaceFirst_detect c r sql.toList hctn
    · next hctn =>
      split
      · exact insert_detect c r _ _
      · split
        · exact insert_detect c r _ _
        · split
          · exact insert_detect c r _ _
          · rw [toList_strApp]
            exact append_detect c r _

/-- A statement on which the scan already succeeds is returned
unchanged. -/
lemma inject_of_detect (sql c r : String)
    (h : whereThenCol (toLowerL c.toList) (toLowerL sql.toList) = true) :
    inject_region_filter sql c r = sql := by
  unfold inject_region_filter
  split
  · rfl
  · rfl

/-- C9.  Region-filter injection is idempotent for every statement,
non-empty access column and non-empty region: the second application
detects the access-column mention after a `WHERE` and returns the
statement unchanged. -/
theorem c9_region_injection_idempotent (sql c r : String)
    (hc : c ≠ "") (hr : r ≠ "") :
    inject_region_filter (inject_region_filter sql c r) c r =
      inject_region_filter sql c r :=
  inject_of_detect _ c r (inject_detect sql c r hc hr)

/-- C9 witness: a concrete double injection, with the single
restriction clause shown explicitly. -/
theorem c9_region_injection_idempotent_witness :
    inject_region_filter "select a from t" "region_code" "RM" =
      "select a from t WHERE region_code LIKE " ++ quoteStr ++ "RM%" ++ quoteStr ++ ";" ∧
    inject_region_filter (inject_region_filter "select a from t" "region_code" "RM")
        "region_code" "RM" =
      inject_region_filter "select a from t" "region_code" "RM" := by
  refine ⟨by decide, ?_⟩
  exact c9_region_injection_idempotent "select a from t" "region_code" "RM"
    (by decide) (by decide)

/-! ### C3 / C4 — terminal answers of the enhanced workflow -/

/-- C3 counterexample.  Question `halo` (clarify intent) with a
failed answer-composition call: the run terminates at `end` with an
empty final answer — only the error field is set. -/
theorem c3_nonempty_final_answer_refuted :
    (runEnhanced oracleAllFail "halo" none).1 = "end" ∧
    (runEnhanced oracleAllFail "halo" none).2.final_answer = none ∧
    (runEnhanced oracleAllFail "halo" none).2.error =
      some "Gagal menghasilkan jawaban dari Web Search." :=
  ⟨rfl, rfl, rfl⟩

/-- C4.  With a non-clarify intent (`berapa …`) and an empty ranker
result, the retriever node itself requests the clarify/web node, but
the graph's routing function ignores `next_node`: the run visits
planner → sql-agent → executor → formatter, never `clarify_agent`,
and terminates with the error field set — the empty-candidate
outcome is handled as an error, not as a web-search fallback. -/
theorem c4_empty_candidates_error_bug :
    (enhanced_metadata_retriever_node oracleAllFail
        (router_node (initState "berapa jumlah penduduk" (some "RM III JABAR")))).next_node =
      some "clarify_agent" ∧
    (runEnhancedTrace oracleAllFail "berapa jumlah penduduk" (some "RM III JABAR")).2 =
      ["router", "metadata_retriever", "planner", "sql_agent", "sql_executor",
        "response_formatter", "end"] ∧
    "clarify_agent" ∉
      (runEnhancedTrace oracleAllFail "berapa jumlah penduduk" (some "RM III JABAR")).2 ∧
    (runEnhancedTrace oracleAllFail "berapa jumlah penduduk" (some "RM III JABAR")).1.2.error =
      some "No SQL query to execute" ∧
    (runEnhancedTrace oracleAllFail "berapa jumlah penduduk" (some "RM III JABAR")).1.2.final_answer =
      some "Maaf, tidak ada data yang dapat ditampilkan saat ini." :=
  ⟨rfl, rfl, by decide, rfl, rfl⟩

/-- Truthiness of a present, non-empty string. -/
lemma truthy_some_ne (s : String) (h : s ≠ "") : truthy (some s) = true := by
  simp [truthy, h]

/-- Appending cannot erase a non-empty prefix. -/
lemma ne_empty_append (a b : String) (ha : a ≠ "") : a ++ b ≠ "" := by
  intro hcon
  apply ha
  have hd := congrArg String.toList hcon
  rw [toList_strApp] at hd
  have hnil := List.append_eq_nil.mp hd
  cases a
  cases b
  simp [String.toList] at hnil
  simp [hnil]

/-- The response formatter always leaves a truthy final answer. -/
lemma formatter_answer_truthy (o : Oracle) (s : AgentState) (hwf : wfOracle o) :
    truthy (response_formatter_node o s).final_answer = true := by
  unfold response_formatter_node
  cases hE : s.execution_result with
  | some rows =>
    cases rows with
    | nil =>
      cases hV : truthy s.validated_sql <;>
        · simp only [List.isEmpty_nil, if_true, hV]
          refine truthy_some_ne _ ?_
          first
            | exact ne_empty_append _ _ (ne_empty_append _ _ (ne_empty_append _ _
                (ne_empty_append _ _ (by decide))))
            | exact ne_empty_append _ _ (ne_empty_append _ _ (ne_empty_append _ _
                (ne_empty_append _ _ (ne_empty_append _ _ (ne_empty_append _ _
                  (ne_empty_append _ _ (by decide)))))))
    | cons row rest =>
      cases hF : o.formatLLM with
      | ok c =>
        have hc : c ≠ "" := by
          have h2 := hwf.2
          rw [hF] at h2
          exact h2
        simp only [List.isEmpty_cons, if_false]
        exact truthy_some_ne c hc
      | err e =>
        simp only [List.isEmpty_cons, if_false]
        exact truthy_some_ne _ (ne_empty_append _ _ (ne_empty_append _ _ (by decide)))
  | none =>
    cases hFc : s.forecast_result with
    | some fc =>
      cases hF : o.formatLLM with
      | ok c =>
        have hc : c ≠ "" := by
          have h2 := hwf.2
          rw [hF] at h2
          exact h2
        exact truthy_some_ne c hc
      | err e =>
        exact truthy_some_ne _ (ne_empty_append _ _ (ne_empty_append _ _
          (ne_empty_append _ _ (ne_empty_append _ _ (by decide)))))
    | none =>
      cases hT : truthy s.final_answer with
      | true =>
        simp only [hT, if_true]
      | false =>
        simp only [hT]
        exact truthy_some_ne _ (by decide)

/-- One step of running with positive fuel from a non-terminal
node. -/
lemma runNodes_succ (o : Oracle) (n : Nat) (node : String) (s : AgentState)
    (h : ¬node = "end") :
    runNodes o (n + 1) (node, s) = runNodes o n (stepEnhanced o (node, s)) := by
  simp [runNodes, h]

/-- The `end` node absorbs. -/
lemma runNodes_end (o : Oracle) (n : Nat) (s : AgentState) :
    runNodes o n ("end", s) = ("end", s) := by
  cases n with
  | zero => rfl
  | succ m => simp [runNodes]

/-- From the response formatter, any run with enough fuel ends. -/
lemma runNodes_formatter (o : Oracle) (n : Nat) (s : AgentState) :
    runNodes o (n + 2) ("response_formatter", s) =
      ("end", response_formatter_node o s) := by
  show runNodes o ((n + 1) + 1) ("response_formatter", s) = _
  rw [runNodes_succ o (n + 1) _ _ (by decide)]
  rw [show stepEnhanced o ("response_formatter", s) =
    ("end", response_formatter_node o s) from rfl]
  exact runNodes_end o (n + 1) _

/-- From the SQL executor (fixed edge to the formatter). -/
lemma runNodes_sql_executor (o : Oracle) (n : Nat) (s : AgentState) :
    runNodes o (n + 3) ("sql_executor", s) =
      ("end", response_formatter_node o (sql_executor_node o s)) := by
  show runNodes o ((n + 2) + 1) ("sql_executor", s) = _
  rw [runNodes_succ o (n + 2) _ _ (by decide)]
  rw [show stepEnhanced o ("sql_executor", s) =
    ("response_formatter", sql_executor_node o s) from rfl]
  exact runNodes_formatter o n _

/-- From the SQL agent (fixed edges through executor and
formatter, regardless of generation/validation outcomes). -/
lemma runNodes_sql_agent (o : Oracle) (n : Nat) (s : AgentState) :
    runNodes o (n + 4) ("sql_agent", s) =
      ("end", response_formatter_node o (sql_executor_node o (enhanced_sql_agent_node o s))) := by
  show runNodes o ((n + 3) + 1) ("sql_agent", s) = _
  rw [runNodes_succ o (n + 3) _ _ (by decide)]
  rw [show stepEnhanced o ("sql_agent", s) =
    ("sql_executor", enhanced_sql_agent_node o s) from rfl]
  exact runNodes_sql_executor o n _

/-- From the forecast agent (fixed edge to the formatter). -/
lemma runNodes_forecast (o : Oracle) (n : Nat) (s : AgentState) :
    runNodes o (n + 3) ("forecast_agent", s) =
      ("end", response_formatter_node o (enhanced_forecast_agent_node o s)) := by
  show runNodes o ((n + 2) + 1) ("forecast_agent", s) = _
  rw [runNodes_succ o (n + 2) _ _ (by decide)]
  rw [show stepEnhanced o ("forecast_agent", s) =
    ("response_formatter", enhanced_forecast_agent_node o s) from rfl]
  exact runNodes_formatter o n _

/-- The metadata retriever preserves the clarification bookkeeping
and the intent, and never raises `needs_clarification`. -/
lemma meta_fields (o : Oracle) (s : AgentState) (hn : s.needs_clarification = false) :
    (enhanced_metadata_retriever_node o s).needs_clarification = false ∧
    (enhanced_metadata_retriever_node o s).clarification_response = s.clarification_response ∧
    (enhanced_metadata_retriever_node o s).clarification_question = s.clarification_question ∧
    (enhanced_metadata_retriever_node o s).intent = s.intent := by
  unfold enhanced_metadata_retriever_node metadataApplySelection metadataFallbackSelect
  split
  · exact ⟨hn, rfl, rfl, rfl⟩
  · split
    · exact ⟨rfl, rfl, rfl, rfl⟩
    · split
      · split
        · exact ⟨hn, rfl, rfl, rfl⟩
        · exact ⟨hn, rfl, rfl, rfl⟩
      · exact ⟨hn, rfl, rfl, rfl⟩

/-- The planner only writes `next_node`. -/
lemma planner_fields (s : AgentState) :
    (planner_node s).needs_clarification = s.needs_clarification ∧
    (planner_node s).clarification_response = s.clarification_response ∧
    (planner_node s).clarification_question = s.clarification_question := by
  unfold planner_node
  split
  · split
    · exact ⟨rfl, rfl, rfl⟩
    · split
      · exact ⟨rfl, rfl, rfl⟩
      · exact ⟨rfl, rfl, rfl⟩
  · exact ⟨rfl, rfl, rfl⟩

/-- The router always classifies into one of the three intents. -/
lemma routerIntent_cases (q : String) :
    routerIntent q = "forecast" ∨ routerIntent q = "sql" ∨ routerIntent q = "clarify" := by
  unfold routerIntent
  split
  · exact Or.inl rfl
  · split
    · exact Or.inr (Or.inl rfl)
    · exact Or.inr (Or.inr rfl)

/-- C3 amended.  For every question, caller region, and well-formed
service outcomes, the enhanced workflow reaches the terminal node
within its fuel, and there the final answer is non-empty or — on the
clarify/web path whose answer-composition call failed, the only such
path — the error field is non-empty. -/
theorem c3_terminal_answer_or_error (o : Oracle) (q : String) (region : Option String)
    (hwf : wfOracle o) :
    (runEnhanced o q region).1 = "end" ∧
    (truthy (runEnhanced o q region).2.final_answer = true ∨
      truthy (runEnhanced o q region).2.error = true) := by
  unfold runEnhanced
  rw [show (12 : Nat) = 11 + 1 from rfl, runNodes_succ o 11 _ _ (by decide)]
  rw [show stepEnhanced o ("router", initState q region) =
    ("metadata_retriever", router_node (initState q region)) from rfl]
  rw [show (11 : Nat) = 10 + 1 from rfl, runNodes_succ o 10 _ _ (by decide)]
  have hmeta := meta_fields o (router_node (initState q region)) rfl
  rw [show stepEnhanced o ("metadata_retriever", router_node (initState q region)) =
    (route_after_metadata (enhanced_metadata_retriever_node o (router_node (initState q region))),
      enhanced_metadata_retriever_node o (router_node (initState q region))) from rfl]
  rw [show route_after_metadata
      (enhanced_metadata_retriever_node o (router_node (initState q region))) = "planner" by
    unfold route_after_metadata
    rw [hmeta.1]
    rfl]
  rw [show (10 : Nat) = 9 + 1 from rfl, runNodes_succ o 9 _ _ (by decide)]
  rw [show stepEnhanced o
      ("planner", enhanced_metadata_retriever_node o (router_node (initState q region))) =
    (route_after_planner (planner_node
        (enhanced_metadata_retriever_node o (router_node (initState q region)))),
      planner_node (enhanced_metadata_retriever_node o (router_node (initState q region))))
    from rfl]
  have hintent : (enhanced_metadata_retriever_node o (router_node (initState q region))).intent =
      some (routerIntent q) := hmeta.2.2.2
  rcases routerIntent_cases q with hI | hI | hI
  · -- forecast path
    rw [show route_after_planner (planner_node
        (enhanced_metadata_retriever_node o (router_node (initState q region)))) =
        "forecast_agent" by
      simp [route_after_planner, planner_node, hintent, hI]]
    rw [show (9 : Nat) = 6 + 3 from rfl, runNodes_forecast o 6 _]
    exact ⟨rfl, Or.inl (formatter_answer_truthy o _ hwf)⟩
  · -- sql path
    rw [show route_after_planner (planner_node
        (enhanced_metadata_retriever_node o (router_node (initState q region)))) =
        "sql_agent" by
      simp [route_after_planner, planner_node, hintent, hI]]
    rw [show (9 : Nat) = 5 + 4 from rfl, runNodes_sql_agent o 5 _]
    exact ⟨rfl, Or.inl (formatter_answer_truthy o _ hwf)⟩
  · -- clarify path
    rw [show route_after_planner (planner_node
        (enhanced_metadata_retriever_node o (router_node (initState q region)))) =
        "clarify_agent" by
      simp [route_after_planner, planner_node, hintent, hI]]
    rw [show (9 : Nat) = 8 + 1 from rfl, runNodes_succ o 8 _ _ (by decide)]
    have hplan := planner_fields
      (enhanced_metadata_retriever_node o (router_node (initState q region)))
    have hresp : (planner_node
        (enhanced_metadata_retriever_node o (router_node (initState q region)))).clarification_response =
        none := by
      rw [hplan.2.1, hmeta.2.1]
      rfl
    have hneeds : (planner_node
        (enhanced_metadata_retriever_node o (router_node (initState q region)))).needs_clarification =
        false := by rw [hplan.1, hmeta.1]
    have hres : clarifyResolve (planner_node
        (enhanced_metadata_retriever_node o (router_node (initState q region)))) = none := by
      unfold clarifyResolve
      rw [hresp]
    rw [show stepEnhanced o ("clarify_agent", planner_node
        (enhanced_metadata_retriever_node o (router_node (initState q region)))) =
      (route_after_clarify (clarify_agent_node o (planner_node
          (enhanced_metadata_retriever_node o (router_node (initState q region))))),
        clarify_agent_node o (planner_node
          (enhanced_metadata_retriever_node o (router_node (initState q region))))) from rfl]
    have hcond : ¬((planner_node
        (enhanced_metadata_retriever_node o (router_node (initState q region)))).needs_clarification =
          true ∧
        truthy (planner_node
          (enhanced_metadata_retriever_node o (router_node (initState q region)))).clarification_question =
          true) := by
      rw [hneeds]
      simp
    cases hC : o.clarifyLLM with
    | ok cont =>
      have hnode : clarify_agent_node o (planner_node
          (enhanced_metadata_retriever_node o (router_node (initState q region)))) =
          { planner_node (enhanced_metadata_retriever_node o (router_node (initState q region)))
              with final_answer := some cont, next_node := some "end" } := by
        unfold clarify_agent_node
        rw [hres, if_neg hcond, hC]
      rw [hnode]
      rw [show route_after_clarify
          { planner_node (enhanced_metadata_retriever_node o (router_node (initState q region)))
              with final_answer := some cont, next_node := some "end" } = "end" by
        unfold route_after_clarify
        rw [show ({ planner_node (enhanced_metadata_retriever_node o (router_node (initState q region)))
            with final_answer := some cont, next_node := some "end" } :
            AgentState).needs_clarification =
          (planner_node (enhanced_metadata_retriever_node o
            (router_node (initState q region)))).needs_clarification from rfl, hneeds]
        rfl]
      rw [runNodes_end]
      refine ⟨rfl, Or.inl ?_⟩
      have hc : cont ≠ "" := by
        have h1 := hwf.1
        rw [hC] at h1
        exact h1
      exact truthy_some_ne cont hc
    | err e =>
      have hnode : clarify_agent_node o (planner_node
          (enhanced_metadata_retriever_node o (router_node (initState q region)))) =
          { planner_node (enhanced_metadata_retriever_node o (router_node (initState q region)))
              with error := some "Gagal menghasilkan jawaban dari Web Search.",
                   next_node := some "end" } := by
        unfold clarify_agent_node
        rw [hres, if_neg hcond, hC]
      rw [hnode]
      rw [show route_after_clarify
          { planner_node (enhanced_metadata_retriever_node o (router_node (initState q region)))
              with error := some "Gagal menghasilkan jawaban dari Web Search.",
                   next_node := some "end" } = "end" by
        unfold route_after_clarify
        rw [show ({ planner_node (enhanced_metadata_retriever_node o (router_node (initState q region)))
            with error := some "Gagal menghasilkan jawaban dari Web Search.",
                 next_node := some "end" } :
            AgentState).needs_clarification =
          (planner_node (enhanced_metadata_retriever_node o
            (router_node (initState q region)))).needs_clarification from rfl, hneeds]
        rfl]
      rw [runNodes_end]
      exact ⟨rfl, Or.inr (truthy_some_ne _ (by decide))⟩

/-- C3 witness: a concrete run on the amended statement — clarify
intent, successful composition — terminates with a truthy answer. -/
theorem c3_terminal_answer_or_error_witness :
    wfOracle { oracleAllFail with clarifyLLM := .ok "Jawaban dari web." } ∧
    ((runEnhanced { oracleAllFail with clarifyLLM := .ok "Jawaban dari web." } "halo" none).1 = "end" ∧
      (truthy (runEnhanced { oracleAllFail with clarifyLLM := .ok "Jawaban dari web." }
          "halo" none).2.final_answer = true ∨
        truthy (runEnhanced { oracleAllFail with clarifyLLM := .ok "Jawaban dari web." }
          "halo" none).2.error = true)) :=
  ⟨by decide, c3_terminal_answer_or_error _ "halo" none (by decide)⟩

end BpsSeki
